import Mathlib

/-!
Verification of the AuraMonster surface-aware locomotion engine.

Shallow embedding of the C++ sources (`Source/AuraMonster/Private/...`)
into Lean 4.  Vectors are exact rational triples; Unreal-engine services
(the line-trace ray query, trigonometric rotation interpolation, random
number generation) are external collaborators and appear as explicit
function parameters or per-decision sample arguments.  Euclidean norms,
which are irrational in general, are threaded as explicit scalar
arguments tied to the squared norm by theorem hypotheses.
-/

namespace AuraMonster

/-- Exact rational 3-vector standing for Unreal's FVector. -/
structure Vec3 where
  x : ℚ
  y : ℚ
  z : ℚ
  deriving DecidableEq, Repr

namespace Vec3

def add (a b : Vec3) : Vec3 := ⟨a.x + b.x, a.y + b.y, a.z + b.z⟩

def sub (a b : Vec3) : Vec3 := ⟨a.x - b.x, a.y - b.y, a.z - b.z⟩

def smul (c : ℚ) (a : Vec3) : Vec3 := ⟨c * a.x, c * a.y, c * a.z⟩

def neg (a : Vec3) : Vec3 := ⟨-a.x, -a.y, -a.z⟩

instance : Add Vec3 := ⟨add⟩

instance : Sub Vec3 := ⟨sub⟩

instance : Neg Vec3 := ⟨neg⟩

instance : SMul ℚ Vec3 := ⟨smul⟩

/-- FVector::DotProduct. -/
def dot (a b : Vec3) : ℚ := a.x * b.x + a.y * b.y + a.z * b.z

/-- FVector::CrossProduct. -/
def cross (a b : Vec3) : Vec3 :=
  ⟨a.y * b.z - a.z * b.y, a.z * b.x - a.x * b.z, a.x * b.y - a.y * b.x⟩

/-- FVector::SizeSquared: the squared Euclidean norm, exact over ℚ. -/
def normSq (a : Vec3) : ℚ := a.x * a.x + a.y * a.y + a.z * a.z

def zero : Vec3 := ⟨0, 0, 0⟩

/-- FVector::UpVector. -/
def up : Vec3 := ⟨0, 0, 1⟩

/-- FVector::ForwardVector. -/
def fwd : Vec3 := ⟨1, 0, 0⟩

end Vec3

open Vec3

/-- A blocking hit reported by the engine's line-trace service
(UWorld::LineTraceSingleByChannel): the hit location, the surface
normal there, and the hit distance from the trace start.  The code
recomputes `(HitResult.Location - Location).Size()`; for a genuine hit
that equals `dist`, which theorem hypotheses record as
`normSq (loc - start) = dist ^ 2`. -/
structure Hit where
  loc : Vec3
  normal : Vec3
  dist : ℚ
  deriving DecidableEq, Repr

/-- The external ray intersection query service: cast a segment from
start to finish, report the nearest blocking hit or nothing. -/
def Ray : Type := Vec3 → Vec3 → Option Hit

/-- An actor orientation, represented by its world-space axes
(FRotator viewed through GetActorForwardVector and friends). -/
structure Frame where
  forward : Vec3
  right : Vec3
  upAxis : Vec3
  deriving DecidableEq, Repr

/-- The engine's rotation construction and interpolation
(FVector::Normalize on the axes, UKismetMathLibrary::MakeRotationFromAxes,
FMath::RInterpTo): current frame, raw forward, raw right, target normal,
delta time, interpolation speed. -/
def AlignInterp : Type := Frame → Vec3 → Vec3 → Vec3 → ℚ → ℚ → Frame

/-- UE's KINDA_SMALL_NUMBER constant (1.e-4f). -/
def kindaSmallNumber : ℚ := 1 / 10000

/-! ## USurfacePathfindingComponent
Embedded from `Source/AuraMonster/Private/SurfacePathfindingComponent.cpp`
(the primary iteration of the file). -/

/-- Configuration of USurfacePathfindingComponent (constructor defaults:
0.3, 200, 5, 45, 100). -/
structure SPConfig where
  surfaceTransitionChance : ℚ := 3 / 10
  surfaceDetectionRange : ℚ := 200
  surfaceAlignmentSpeed : ℚ := 5
  minTransitionAngle : ℚ := 45
  acceptanceRadius : ℚ := 100
  deriving DecidableEq, Repr

/-- Mutable state of the component together with the owner actor's
transform (the actor transform sink): world position, orientation frame,
the tracked surface normal and the on-surface flag. -/
structure SPState where
  pos : Vec3
  frame : Frame
  currentSurfaceNormal : Vec3
  bIsOnSurface : Bool
  deriving DecidableEq, Repr

/-- A surface sample returned to callers: offset surface point and raw
hit normal. -/
structure SurfacePoint where
  loc : Vec3
  normal : Vec3
  deriving DecidableEq, Repr

/-- The six fixed world-space trace directions of DetectSurface
(down, up, right, left, forward, backward). -/
def traceDirections : List Vec3 :=
  [⟨0, 0, -1⟩, ⟨0, 0, 1⟩, ⟨1, 0, 0⟩, ⟨-1, 0, 0⟩, ⟨0, 1, 0⟩, ⟨0, -1, 0⟩]

/-- The weighted candidate score of DetectSurface:
70% proximity, 30% alignment with the current surface normal
(neutral 0.5 when not on a surface).  `hitDistance` is the code's
`(HitResult.Location - Location).Size()`, carried on the hit record. -/
def detectScore (cfg : SPConfig) (st : SPState) (h : Hit) : ℚ :=
  let distanceScore : ℚ := 1 - h.dist / cfg.surfaceDetectionRange
  let alignmentScore : ℚ :=
    if st.bIsOnSurface then (dot st.currentSurfaceNormal h.normal + 1) * (1 / 2)
    else 1 / 2
  distanceScore * (7 / 10) + alignmentScore * (3 / 10)

/-- One step of DetectSurface's best-candidate loop: trace along one
direction and keep the higher-scoring candidate (strict improvement, as
in the source's `Score > BestScore`). -/
def detectStep (cfg : SPConfig) (ray : Ray) (st : SPState) (location : Vec3)
    (acc : ℚ × Option SurfacePoint) (d : Vec3) : ℚ × Option SurfacePoint :=
  match ray location (location + cfg.surfaceDetectionRange • d) with
  | none => acc
  | some h =>
      let score := detectScore cfg st h
      if acc.1 < score then
        (score, some ⟨h.loc + (10 : ℚ) • h.normal, h.normal⟩)
      else acc

/-- DetectSurface with its internal accumulator (BestScore starts at -1,
bFoundSurface is the option). -/
def detectSurfaceAux (cfg : SPConfig) (ray : Ray) (st : SPState)
    (location : Vec3) : ℚ × Option SurfacePoint :=
  traceDirections.foldl (detectStep cfg ray st location) (-1, none)

/-- DetectSurface: multi-directional traces, best-scoring candidate wins;
the returned point is offset 10 units along the hit normal. -/
def detectSurface (cfg : SPConfig) (ray : Ray) (st : SPState)
    (location : Vec3) : Option SurfacePoint :=
  (detectSurfaceAux cfg ray st location).2

/-- The fallback reference axis of AlignToSurface: world up unless the
target normal is nearly vertical, world forward otherwise. -/
def fallbackReference (targetNormal : Vec3) : Vec3 :=
  if |targetNormal.z| < 9 / 10 then Vec3.up else Vec3.fwd

/-- The right vector chosen by AlignToSurface: the cross product of the
target normal and the current forward, or the cross product with the
fallback reference axis when the former is nearly zero. -/
def alignRightVector (targetNormal currentForward : Vec3) : Vec3 :=
  let rightVector := cross targetNormal currentForward
  if normSq rightVector < kindaSmallNumber then
    cross targetNormal (fallbackReference targetNormal)
  else rightVector

/-- AlignToSurface: pick the right vector (with degenerate fallback),
derive the forward vector perpendicular to right and normal, and hand
the raw axes to the engine's normalise/make-rotation/RInterpTo chain.
`GetActorForwardVector` returns a unit vector, so the source's
`CurrentForward.Normalize()` is the identity on it. -/
def alignToSurface (cfg : SPConfig) (interp : AlignInterp) (fr : Frame)
    (targetNormal : Vec3) (dt : ℚ) : Frame :=
  let rightVector := alignRightVector targetNormal fr.forward
  let forwardVector := cross rightVector targetNormal
  interp fr forwardVector rightVector targetNormal dt cfg.surfaceAlignmentSpeed

/-- The end point of MoveTowardsSurfaceLocation's forward path trace:
the desired location extended by the detection range along the
normalised direction of travel.  `dist` is the value of
`DirectionToTarget.Size()`. -/
def pathTraceEnd (cfg : SPConfig) (st : SPState) (targetLocation : Vec3)
    (dt speed dist : ℚ) : Vec3 :=
  let directionToTarget := (1 / dist) • (targetLocation - st.pos)
  let movementThisFrame := min (speed * dt) dist
  let desiredLocation := st.pos + movementThisFrame • directionToTarget
  desiredLocation + cfg.surfaceDetectionRange • directionToTarget

/-- MoveTowardsSurfaceLocation: returns the updated state and the
still-moving flag.  `dist` is the scalar value of
`DirectionToTarget.Size()` (tied to `normSq (target - pos)` by theorem
hypotheses, since the Euclidean norm is irrational in general). -/
def moveTowardsSurfaceLocation (cfg : SPConfig) (ray : Ray)
    (interp : AlignInterp) (st : SPState) (targetLocation : Vec3)
    (dt speed dist : ℚ) : SPState × Bool :=
  if dist ≤ cfg.acceptanceRadius then
    (st, false)
  else
    let directionToTarget := (1 / dist) • (targetLocation - st.pos)
    let movementThisFrame := min (speed * dt) dist
    let desiredLocation := st.pos + movementThisFrame • directionToTarget
    match ray st.pos (desiredLocation + cfg.surfaceDetectionRange • directionToTarget) with
    | some forwardHit =>
        if dot forwardHit.normal directionToTarget < -(3 / 10) then
          match detectSurface cfg ray st st.pos with
          | some nearest =>
              ({ st with
                  pos := nearest.loc
                  currentSurfaceNormal := nearest.normal
                  bIsOnSurface := true
                  frame := alignToSurface cfg interp st.frame nearest.normal dt }, true)
          | none => (st, true)
        else
          let surfaceLocation := forwardHit.loc + (10 : ℚ) • forwardHit.normal
          ({ st with
              pos := surfaceLocation
              currentSurfaceNormal := forwardHit.normal
              bIsOnSurface := true
              frame := alignToSurface cfg interp st.frame forwardHit.normal dt }, true)
    | none =>
        match detectSurface cfg ray st desiredLocation with
        | some nearest =>
            ({ st with
                pos := nearest.loc
                currentSurfaceNormal := nearest.normal
                bIsOnSurface := true
                frame := alignToSurface cfg interp st.frame nearest.normal dt }, true)
        | none =>
            ({ st with pos := desiredLocation, bIsOnSurface := false }, true)

/-- One attempt of GetRandomSurfaceLocation (the biased-sampling
iteration in `unnamed/part_000`): trace from the origin along the drawn
direction over the drawn distance; on a hit, offset the location along
the normal and accept.  The surface-transition preference check of the
source accepts in both of its branches, which this embedding reproduces
verbatim. -/
def randomSurfaceAttempt (ray : Ray) (st : SPState) (originLocation : Vec3)
    (dir : Vec3) (dist : ℚ) : Option SurfacePoint :=
  match ray originLocation (originLocation + dist • dir) with
  | none => none
  | some h =>
      let outLocation := h.loc + (10 : ℚ) • h.normal
      if st.bIsOnSurface ∧ dot st.currentSurfaceNormal h.normal < 1 / 2 then
        some ⟨outLocation, h.normal⟩
      else
        some ⟨outLocation, h.normal⟩

/-- GetRandomSurfaceLocation (the `unnamed/part_000` iteration,
MaxAttempts = 50): the per-attempt random direction (FMath::VRand plus
the surface-orientation bias blending, which normalises intermediate
vectors) and random distance (FMath::RandRange over
[Range*0.5, Range]) are drawn from the sampling oracles `dirs` and
`dists`; the first attempt whose trace hits is accepted. -/
def randomSurfaceGo (ray : Ray) (st : SPState) (originLocation : Vec3)
    (dirs : ℕ → Vec3) (dists : ℕ → ℚ) : List ℕ → Option SurfacePoint
  | [] => none
  | i :: rest =>
      match randomSurfaceAttempt ray st originLocation (dirs i) (dists i) with
      | some r => some r
      | none => randomSurfaceGo ray st originLocation dirs dists rest

/-- GetRandomSurfaceLocation's attempt loop over MaxAttempts = 50. -/
def getRandomSurfaceLocation (ray : Ray) (st : SPState)
    (originLocation : Vec3) (dirs : ℕ → Vec3) (dists : ℕ → ℚ) :
    Option SurfacePoint :=
  randomSurfaceGo ray st originLocation dirs dists (List.range 50)

/-! ## AMonsterAIController
Embedded from `Source/AuraMonster/Private/MonsterAIController.cpp` and
`MonsterCharacter.cpp`. -/

/-- EMonsterBehaviorState. -/
inductive MState where
  | Idle
  | PatrolStanding
  | PatrolCrawling
  deriving DecidableEq, Repr

/-- Configuration properties of AMonsterAIController and
AMonsterCharacter (constructor defaults shown). -/
structure CtrlConfig where
  minIdleDuration : ℚ := 5
  maxIdleDuration : ℚ := 15
  minSubtleMovementInterval : ℚ := 2
  maxSubtleMovementInterval : ℚ := 6
  patrolTransitionChance : ℚ := 3 / 10
  patrolRange : ℚ := 1000
  minStopDuration : ℚ := 2
  maxStopDuration : ℚ := 5
  patrolAcceptanceRadius : ℚ := 100
  crawlSurfaceDetectionDistance : ℚ := 2000
  surfaceTransitionChance : ℚ := 3 / 10
  surfaceAlignmentSpeed : ℚ := 5
  crawlSurfaceOffset : ℚ := 50
  fallbackTraceUpDistance : ℚ := 100
  fallbackTraceDownDistance : ℚ := 500
  minCrawlDistanceMultiplier : ℚ := 3 / 10
  patrolStandingSpeed : ℚ := 300
  patrolCrawlingSpeed : ℚ := 150
  deriving DecidableEq, Repr

/-- Mutable controller state (the fields the embedded behaviors touch),
together with the controlled character's own behavior state and walk
speed.  BreathingCycleDuration lives here because OnEnterState(Idle)
overwrites it when non-positive. -/
structure CtrlState where
  currentState : MState
  currentIdleTime : ℚ
  targetIdleDuration : ℚ
  timeSinceLastSubtleMovement : ℚ
  nextSubtleMovementTime : ℚ
  breathingCycleTime : ℚ
  breathingCycleDuration : ℚ
  currentStopTime : ℚ
  targetStopDuration : ℚ
  bIsStoppedAtDestination : Bool
  currentCrawlStopTime : ℚ
  targetCrawlStopDuration : ℚ
  bIsStoppedAtCrawlDestination : Bool
  bIsMovingToCrawlDestination : Bool
  bIsTransitioningBetweenSurfaces : Bool
  currentSurfaceNormal : Vec3
  targetSurfaceNormal : Vec3
  crawlingDestination : Vec3
  characterState : MState
  characterMaxWalkSpeed : ℚ
  deriving DecidableEq, Repr

/-- The fresh uniform samples in [0,1) a single controller tick may
consume, one named field per FRand/RandRange call site. -/
structure Draws where
  subtleChoice : ℚ := 0
  subtleNext : ℚ := 0
  transitionRoll : ℚ := 0
  statePick : ℚ := 0
  idleRedraw : ℚ := 0
  enterIdleTarget : ℚ := 0
  enterIdleSubtleNext : ℚ := 0
  deriving DecidableEq, Repr

/-- Observable hook invocations and callbacks fired during a tick. -/
inductive Event where
  | onExitState (old : MState)
  | onEnterState (new : MState)
  | onBehaviorStateChanged (old new : MState)
  | onBreathingUpdate (intensity : ℚ)
  | onNeckTwitch
  | onFingerShift
  deriving DecidableEq, Repr

/-- GetValidatedRandomRange followed by FMath::RandRange: order the
bounds with Min/Max, then sample uniformly; `r` is the uniform draw in
[0,1]. -/
def validatedRandomRange (minValue maxValue r : ℚ) : ℚ :=
  let validMin := min minValue maxValue
  let validMax := max minValue maxValue
  validMin + r * (validMax - validMin)

/-- AMonsterCharacter::GetMovementSpeedForState. -/
def getMovementSpeedForState (cfg : CtrlConfig) (s : MState) : ℚ :=
  match s with
  | MState.Idle => 0
  | MState.PatrolStanding => cfg.patrolStandingSpeed
  | MState.PatrolCrawling => cfg.patrolCrawlingSpeed

/-- AMonsterCharacter::SetBehaviorStateInternal: update the character's
state and walk speed and fire OnBehaviorStateChanged, without notifying
the AI controller; a no-op when the state is unchanged. -/
def setBehaviorStateInternal (cfg : CtrlConfig) (st : CtrlState)
    (newState : MState) : CtrlState × List Event :=
  if st.characterState ≠ newState then
    ({ st with
        characterState := newState
        characterMaxWalkSpeed := getMovementSpeedForState cfg newState },
      [Event.onBehaviorStateChanged st.characterState newState])
  else (st, [])

/-- AMonsterAIController::OnEnterState_Implementation.  Entering
PatrolCrawling probes straight down through the monster's location
(`loc`) for the initial surface normal, falling back to world up. -/
def onEnterState (cfg : CtrlConfig) (d : Draws) (ray : Ray) (loc : Vec3)
    (st : CtrlState) (newState : MState) : CtrlState :=
  match newState with
  | MState.Idle =>
      { st with
          breathingCycleDuration :=
            if st.breathingCycleDuration ≤ 0 then 4 else st.breathingCycleDuration
          currentIdleTime := 0
          targetIdleDuration :=
            validatedRandomRange cfg.minIdleDuration cfg.maxIdleDuration d.enterIdleTarget
          timeSinceLastSubtleMovement := 0
          nextSubtleMovementTime :=
            validatedRandomRange cfg.minSubtleMovementInterval
              cfg.maxSubtleMovementInterval d.enterIdleSubtleNext
          breathingCycleTime := 0 }
  | MState.PatrolStanding =>
      { st with
          currentStopTime := 0
          targetStopDuration := 0
          bIsStoppedAtDestination := false }
  | MState.PatrolCrawling =>
      let st := { st with
          currentStopTime := 0
          targetStopDuration := 0
          bIsStoppedAtDestination := false
          currentCrawlStopTime := 0
          targetCrawlStopDuration := 0
          bIsStoppedAtCrawlDestination := false
          bIsMovingToCrawlDestination := false
          bIsTransitioningBetweenSurfaces := false }
      match ray (loc + Vec3.mk 0 0 cfg.fallbackTraceUpDistance)
            (loc - Vec3.mk 0 0 cfg.fallbackTraceDownDistance) with
      | some h =>
          { st with currentSurfaceNormal := h.normal, targetSurfaceNormal := h.normal }
      | none =>
          { st with currentSurfaceNormal := Vec3.up, targetSurfaceNormal := Vec3.up }

/-- AMonsterAIController::TransitionToState: when the requested state
differs, fire OnExitState, switch the state, synchronise the character
through SetBehaviorStateInternal, and fire OnEnterState; otherwise do
nothing at all. -/
def transitionToState (cfg : CtrlConfig) (d : Draws) (ray : Ray) (loc : Vec3)
    (st : CtrlState) (newState : MState) : CtrlState × List Event :=
  if st.currentState ≠ newState then
    let evExit := Event.onExitState st.currentState
    let st1 := { st with currentState := newState }
    let (st2, evChar) := setBehaviorStateInternal cfg st1 newState
    let st3 := onEnterState cfg d ray loc st2 newState
    (st3, evExit :: evChar ++ [Event.onEnterState newState])
  else (st, [])

/-- FMath::Fmod for a non-negative dividend and positive divisor. -/
def fmodQ (a b : ℚ) : ℚ := a - b * ⌊a / b⌋

/-- AMonsterAIController::ExecuteIdleBehavior_Implementation.  `sinQ`
and `piQ` stand for the engine's FMath::Sin and PI, which only shape the
cosmetic breathing-intensity callback value. -/
def executeIdleBehavior (cfg : CtrlConfig) (sinQ : ℚ → ℚ) (piQ : ℚ)
    (ray : Ray) (loc : Vec3) (st : CtrlState) (dt : ℚ) (d : Draws) :
    CtrlState × List Event :=
  let st := { st with currentIdleTime := st.currentIdleTime + dt }
  let breathing :=
    if 0 < st.breathingCycleDuration then
      let bct := fmodQ (st.breathingCycleTime + dt) st.breathingCycleDuration
      let normalizedTime := bct / st.breathingCycleDuration
      let intensity := (sinQ (normalizedTime * 2 * piQ) + 1) * (1 / 2)
      ({ st with breathingCycleTime := bct }, [Event.onBreathingUpdate intensity])
    else (st, ([] : List Event))
  let st := breathing.1
  let st := { st with timeSinceLastSubtleMovement := st.timeSinceLastSubtleMovement + dt }
  let subtle :=
    if st.nextSubtleMovementTime ≤ st.timeSinceLastSubtleMovement then
      let ev := if d.subtleChoice < 1 / 2 then Event.onNeckTwitch else Event.onFingerShift
      ({ st with
          timeSinceLastSubtleMovement := 0
          nextSubtleMovementTime :=
            validatedRandomRange cfg.minSubtleMovementInterval
              cfg.maxSubtleMovementInterval d.subtleNext }, [ev])
    else (st, ([] : List Event))
  let st := subtle.1
  if st.targetIdleDuration ≤ st.currentIdleTime then
    if d.transitionRoll < cfg.patrolTransitionChance then
      let newState :=
        if d.statePick < 1 / 2 then MState.PatrolStanding else MState.PatrolCrawling
      let tr := transitionToState cfg d ray loc st newState
      (tr.1, breathing.2 ++ subtle.2 ++ tr.2)
    else
      ({ st with
          currentIdleTime := 0
          targetIdleDuration :=
            validatedRandomRange cfg.minIdleDuration cfg.maxIdleDuration d.idleRedraw },
        breathing.2 ++ subtle.2)
  else (st, breathing.2 ++ subtle.2)

/-- A sequence of idle-state ticks, each with its delta time and fresh
random samples. -/
def executeIdleTicks (cfg : CtrlConfig) (sinQ : ℚ → ℚ) (piQ : ℚ)
    (ray : Ray) (loc : Vec3) (st : CtrlState) :
    List (ℚ × Draws) → CtrlState
  | [] => st
  | (dt, d) :: rest =>
      executeIdleTicks cfg sinQ piQ ray loc
        (executeIdleBehavior cfg sinQ piQ ray loc st dt d).1 rest

/-- AMonsterAIController::HasReachedCrawlDestination: within the patrol
acceptance radius of the crawl destination.  `dist` carries the value of
`FVector::Dist(CurrentLocation, CrawlingDestination)`. -/
def hasReachedCrawlDestination (cfg : CtrlConfig) (dist : ℚ) : Bool :=
  dist ≤ cfg.patrolAcceptanceRadius

/-- The MaxAttempts constant of FindCrawlableDestination. -/
def maxCrawlAttempts : ℕ := 8

/-- One attempt of FindCrawlableDestination, returning the accepted
destination (if any) and the number of ray queries spent.  `dir` is the
attempt's random direction (FRotator(Pitch, Yaw, 0).Vector() over the
drawn pitch and yaw — engine trigonometry, supplied by the sampling
oracle) and `dist` the drawn distance in
[PatrolRange * MinCrawlDistanceMultiplier, PatrolRange]. -/
def crawlAttempt (cfg : CtrlConfig) (ray : Ray) (cur : Vec3)
    (dir : Vec3) (dist : ℚ) : Option SurfacePoint × ℕ :=
  let targetPoint := cur + dist • dir
  let halfTrace := cfg.crawlSurfaceDetectionDistance * (1 / 2)
  match ray (targetPoint + halfTrace • dir) (targetPoint - halfTrace • dir) with
  | some h =>
      let surfaceLocation := h.loc + cfg.crawlSurfaceOffset • h.normal
      match ray cur surfaceLocation with
      | none => (some ⟨surfaceLocation, h.normal⟩, 2)
      | some _ =>
          match ray cur (cur + dist • dir) with
          | some h2 =>
              (some ⟨h2.loc + cfg.crawlSurfaceOffset • h2.normal, h2.normal⟩, 3)
          | none => (none, 3)
  | none =>
      match ray cur (cur + dist • dir) with
      | some h2 =>
          (some ⟨h2.loc + cfg.crawlSurfaceOffset • h2.normal, h2.normal⟩, 2)
      | none => (none, 2)

/-- The straight-down floor-recovery probe FindCrawlableDestination
falls back to after all attempts fail. -/
def crawlFallbackProbe (cfg : CtrlConfig) (ray : Ray) (cur : Vec3) :
    Option SurfacePoint :=
  match ray (cur + Vec3.mk 0 0 cfg.fallbackTraceUpDistance)
        (cur - Vec3.mk 0 0 cfg.fallbackTraceDownDistance) with
  | some h => some ⟨h.loc + cfg.crawlSurfaceOffset • h.normal, h.normal⟩
  | none => none

/-- The attempt loop of FindCrawlableDestination, threading the ray
query count. -/
def findCrawlableGo (cfg : CtrlConfig) (ray : Ray) (cur : Vec3)
    (dirs : ℕ → Vec3) (dists : ℕ → ℚ) :
    List ℕ → ℕ → Option SurfacePoint × ℕ
  | [], n => (crawlFallbackProbe cfg ray cur, n + 1)
  | i :: rest, n =>
      match crawlAttempt cfg ray cur (dirs i) (dists i) with
      | (some r, c) => (some r, n + c)
      | (none, c) => findCrawlableGo cfg ray cur dirs dists rest (n + c)

/-- AMonsterAIController::FindCrawlableDestination, instrumented with
the total number of line traces performed. -/
def findCrawlableDestination (cfg : CtrlConfig) (ray : Ray) (cur : Vec3)
    (dirs : ℕ → Vec3) (dists : ℕ → ℚ) : Option SurfacePoint × ℕ :=
  findCrawlableGo cfg ray cur dirs dists (List.range maxCrawlAttempts) 0

/-! ## Stuck detection
`MonsterAIController.h` declares `PreviousCrawlingLocation` and
`StuckTime` for stuck detection, but the translation unit implementing
them is not part of the sources; the tracker below is reconstructed
from the specification. -/

/-- Modelled from the spec: the StuckTracker state feeding crawl
replanning (the implementation behind the header's
`PreviousCrawlingLocation`/`StuckTime`/`bHasCrawlingTarget` fields is
missing from the sources).  Accumulated low-progress time plus the
last-known position, alongside the currently held crawl destination. -/
structure StuckTracker where
  bHasCrawlingTarget : Bool
  crawlingTargetLocation : Vec3
  previousCrawlingLocation : Vec3
  stuckTime : ℚ
  deriving DecidableEq, Repr

/-- Modelled from the spec: one stuck-detection sample.  The timer
resets whenever displacement since the previous sample exceeds the
minimum-progress speed threshold over `dt` (compared through squared
norms, which is exact); once the accumulated time exceeds the
stuck-time threshold the held destination is invalidated, forcing a new
one to be requested. -/
def stuckTick (minProgressSpeed stuckThreshold : ℚ) (st : StuckTracker)
    (pos : Vec3) (dt : ℚ) : StuckTracker :=
  let progressed := (minProgressSpeed * dt) ^ 2 < normSq (pos - st.previousCrawlingLocation)
  let newStuckTime := if progressed then 0 else st.stuckTime + dt
  if stuckThreshold < newStuckTime then
    { st with
        bHasCrawlingTarget := false
        previousCrawlingLocation := pos
        stuckTime := 0 }
  else
    { st with previousCrawlingLocation := pos, stuckTime := newStuckTime }

/-- `n` consecutive stuck-detection samples at a fixed reported
position. -/
def stuckTickN (minProgressSpeed stuckThreshold : ℚ) (pos : Vec3)
    (dt : ℚ) : ℕ → StuckTracker → StuckTracker
  | 0, st => st
  | n + 1, st =>
      stuckTickN minProgressSpeed stuckThreshold pos dt n
        (stuckTick minProgressSpeed stuckThreshold st pos dt)

/-! ## Stubs for the end-to-end scenarios and proof-side predicates -/

/-- Scenario-D stub ray service: the attempt-0 endpoint yields a
candidate whose normal is parallel to the current surface normal, the
attempt-1 endpoint yields one perpendicular to it, everything else
misses. -/
def scenarioDRay : Ray := fun _ e =>
  if e = Vec3.mk 100 0 0 then some ⟨Vec3.mk 100 0 0, Vec3.up, 100⟩
  else if e = Vec3.mk 0 100 0 then some ⟨Vec3.mk 0 100 0, Vec3.fwd, 100⟩
  else none

/-- Scenario-D stub direction oracle: attempt 0 points at the
near-parallel candidate, later attempts at the near-perpendicular
one. -/
def scenarioDDirs : ℕ → Vec3 := fun i =>
  if i = 0 then Vec3.mk 1 0 0 else Vec3.mk 0 1 0

/-- Scenario-D stub distance oracle. -/
def scenarioDDists : ℕ → ℚ := fun _ => 100

/-- Scenario-D component state: on a surface whose normal is world
up. -/
def scenarioDState : SPState :=
  ⟨Vec3.zero, ⟨Vec3.fwd, Vec3.mk 0 1 0, Vec3.up⟩, Vec3.up, true⟩

/-- Idle-scenario configuration of the end-to-end test: a fixed
2-second idle duration and transition probability 1. -/
def scenarioACfg : CtrlConfig :=
  { minIdleDuration := 2, maxIdleDuration := 2, patrolTransitionChance := 1 }

/-- Idle-scenario start state: freshly entered Idle with target
duration 2. -/
def scenarioAState : CtrlState :=
  ⟨MState.Idle, 0, 2, 0, 0, 0, 4, 0, 0, false, 0, 0, false, false, false,
    Vec3.up, Vec3.up, Vec3.zero, MState.Idle, 0⟩

/-- Sampler-scenario stub ray: only the downward trace from the origin
hits, 50 units away on a floor with unit normal up. -/
def scenarioSamplerRay : Ray := fun _ e =>
  if e = Vec3.mk 0 0 (-200) then some ⟨Vec3.mk 0 0 (-50), Vec3.up, 50⟩
  else none

/-- Well-formedness of one ray answer for a trace of length `range`
starting at `loc`: a genuine blocking hit lies on the traced segment
(non-negative distance within range, distance consistent with the hit
location) and reports a unit surface normal. -/
def rayHitWF (range : ℚ) (loc : Vec3) : Option Hit → Prop
  | none => True
  | some h =>
      0 ≤ h.dist ∧ h.dist ≤ range ∧ normSq h.normal = 1 ∧
        normSq (h.loc - loc) = h.dist ^ 2

/-- Loop invariant of DetectSurface's best-candidate fold: a `none`
accumulator means every processed direction missed (score still -1); a
`some` accumulator is the offset output of an actual processed hit
whose score is the accumulator score, and that score dominates every
processed hit. -/
def DetectInv (cfg : SPConfig) (ray : Ray) (st : SPState) (loc : Vec3)
    (processed : List Vec3) (acc : ℚ × Option SurfacePoint) : Prop :=
  (acc.2 = none → acc.1 = -1 ∧
    ∀ d ∈ processed, ray loc (loc + cfg.surfaceDetectionRange • d) = none) ∧
  (∀ sp, acc.2 = some sp →
    (∃ d ∈ processed, ∃ h,
        ray loc (loc + cfg.surfaceDetectionRange • d) = some h ∧
        detectScore cfg st h = acc.1 ∧
        sp = ⟨h.loc + (10 : ℚ) • h.normal, h.normal⟩) ∧
    ∀ d ∈ processed, ∀ h,
      ray loc (loc + cfg.surfaceDetectionRange • d) = some h →
        detectScore cfg st h ≤ acc.1)

/-! ## Theorems -/

@[simp] theorem Vec3.add_def (a b : Vec3) :
    a + b = ⟨a.x + b.x, a.y + b.y, a.z + b.z⟩ := rfl

@[simp] theorem Vec3.sub_def (a b : Vec3) :
    a - b = ⟨a.x - b.x, a.y - b.y, a.z - b.z⟩ := rfl

@[simp] theorem Vec3.smul_def (c : ℚ) (a : Vec3) :
    c • a = ⟨c * a.x, c * a.y, c * a.z⟩ := rfl

theorem Vec3.dot_def (a b : Vec3) :
    dot a b = a.x * b.x + a.y * b.y + a.z * b.z := rfl

theorem Vec3.normSq_def (a : Vec3) :
    normSq a = a.x * a.x + a.y * a.y + a.z * a.z := rfl

theorem Vec3.cross_def (a b : Vec3) :
    cross a b = ⟨a.y * b.z - a.z * b.y, a.z * b.x - a.x * b.z,
      a.x * b.y - a.y * b.x⟩ := rfl

theorem Vec3.normSq_nonneg (a : Vec3) : 0 ≤ a.normSq := by
  have hx := mul_self_nonneg a.x
  have hy := mul_self_nonneg a.y
  have hz := mul_self_nonneg a.z
  unfold normSq; linarith

/-- Lagrange identity specialised to 3-vectors: the squared dot product
plus the squared cross product equals the product of squared norms. -/
theorem Vec3.dot_sq_add_cross_normSq (a b : Vec3) :
    dot a b ^ 2 + normSq (cross a b) = normSq a * normSq b := by
  unfold dot cross normSq
  ring

/-- Cauchy-Schwarz over ℚ, from the Lagrange identity. -/
theorem Vec3.dot_sq_le (a b : Vec3) : dot a b ^ 2 ≤ normSq a * normSq b := by
  have h := dot_sq_add_cross_normSq a b
  have h2 := normSq_nonneg (cross a b)
  linarith

/-- C10: calling TransitionToState with the current state is a complete
no-op: no hook fires, the character state is not re-set, and the
controller state is unchanged. -/
theorem transitionToState_same_state_noop (cfg : CtrlConfig) (d : Draws)
    (ray : Ray) (loc : Vec3) (st : CtrlState) :
    transitionToState cfg d ray loc st st.currentState = (st, []) := by
  simp [transitionToState]

/-- C8: for swapped bounds (a > b), the validated random-range sampler
stays inside [min(a,b), max(a,b)], and swapping the two arguments does
not change the result. -/
theorem validatedRandomRange_swapped_bounds (a b r : ℚ) (hab : b < a)
    (hr0 : 0 ≤ r) (hr1 : r ≤ 1) :
    min a b ≤ validatedRandomRange a b r ∧
    validatedRandomRange a b r ≤ max a b ∧
    validatedRandomRange a b r = validatedRandomRange b a r := by
  have hminmax : min a b ≤ max a b := min_le_max
  refine ⟨?_, ?_, ?_⟩
  · have : 0 ≤ r * (max a b - min a b) := by
      apply mul_nonneg hr0; linarith
    simp only [validatedRandomRange]; linarith
  · have : r * (max a b - min a b) ≤ max a b - min a b := by
      nlinarith
    simp only [validatedRandomRange]; linarith
  · simp only [validatedRandomRange, min_comm, max_comm]

theorem validatedRandomRange_swapped_bounds_witness :
    (2 : ℚ) < 5 ∧ (0 : ℚ) ≤ 1 / 2 ∧ (1 / 2 : ℚ) ≤ 1 ∧
    (min (5 : ℚ) 2 ≤ validatedRandomRange 5 2 (1 / 2) ∧
     validatedRandomRange 5 2 (1 / 2) ≤ max (5 : ℚ) 2 ∧
     validatedRandomRange 5 2 (1 / 2) = validatedRandomRange 2 5 (1 / 2)) :=
  ⟨by norm_num, by norm_num, by norm_num,
    validatedRandomRange_swapped_bounds 5 2 (1 / 2) (by norm_num)
      (by norm_num) (by norm_num)⟩

/-- C9: for a unit target normal, the right vector chosen by
AlignToSurface is never zero, and in the degenerate case (cross product
of normal and forward nearly zero) it is exactly the cross product with
the fallback reference axis (world up when the normal is not nearly
vertical, world forward otherwise). -/
theorem alignRightVector_never_degenerate (n f : Vec3)
    (hn : normSq n = 1) :
    0 < normSq (alignRightVector n f) ∧
    (normSq (cross n f) < kindaSmallNumber →
      alignRightVector n f = cross n (fallbackReference n)) := by
  constructor
  · by_cases hc : normSq (cross n f) < kindaSmallNumber
    · rw [alignRightVector]
      simp only [hc, if_true]
      rw [fallbackReference]
      by_cases hz : |n.z| < 9 / 10
      · rw [if_pos hz]
        have hz2 : n.z * n.z < 81 / 100 := by
          rcases abs_lt.mp hz with ⟨h1, h2⟩
          nlinarith
        simp only [cross, normSq, Vec3.up] at *
        nlinarith
      · rw [if_neg hz]
        have hz2 : 81 / 100 ≤ n.z * n.z := by
          push_neg at hz
          have := abs_nonneg n.z
          nlinarith [sq_abs n.z, sq_nonneg n.z]
        simp only [cross, normSq, Vec3.fwd] at *
        nlinarith
    · rw [alignRightVector]
      simp only [hc, if_false]
      push_neg at hc
      have : (0 : ℚ) < kindaSmallNumber := by norm_num [kindaSmallNumber]
      linarith
  · intro hc
    rw [alignRightVector]
    simp only [hc, if_true]

theorem alignRightVector_never_degenerate_witness :
    normSq (Vec3.mk 0 0 1) = 1 ∧
    (0 < normSq (alignRightVector (Vec3.mk 0 0 1) (Vec3.mk 0 0 1)) ∧
     (normSq (cross (Vec3.mk 0 0 1) (Vec3.mk 0 0 1)) < kindaSmallNumber →
       alignRightVector (Vec3.mk 0 0 1) (Vec3.mk 0 0 1) =
         cross (Vec3.mk 0 0 1) (fallbackReference (Vec3.mk 0 0 1)))) :=
  ⟨by norm_num [normSq_def],
    alignRightVector_never_degenerate (Vec3.mk 0 0 1) (Vec3.mk 0 0 1)
      (by norm_num [normSq_def])⟩

/-- C1: MoveTowardsSurfaceLocation returns false exactly when the
distance to the target is at most the acceptance radius, and in that
arrived case it performs no movement at all (state, hence position and
orientation, unchanged).  `dist` is the value of
`DirectionToTarget.Size()`. -/
theorem moveTowards_false_iff_arrived (cfg : SPConfig) (ray : Ray)
    (interp : AlignInterp) (st : SPState) (targetLocation : Vec3)
    (dt speed dist : ℚ) (hd0 : 0 ≤ dist)
    (hd : dist ^ 2 = normSq (targetLocation - st.pos)) :
    ((moveTowardsSurfaceLocation cfg ray interp st targetLocation dt speed dist).2 = false ↔
      dist ≤ cfg.acceptanceRadius) ∧
    (dist ≤ cfg.acceptanceRadius →
      (moveTowardsSurfaceLocation cfg ray interp st targetLocation dt speed dist).1 = st) := by
  by_cases h : dist ≤ cfg.acceptanceRadius
  · rw [moveTowardsSurfaceLocation, if_pos h]
    exact ⟨by simp [h], fun _ => rfl⟩
  · rw [moveTowardsSurfaceLocation, if_neg h]
    constructor
    · simp only [h, iff_false]
      intro hfalse
      revert hfalse
      split
      · split
        · split <;> simp
        · simp
      · split <;> simp
    · intro hc; exact absurd hc h

theorem moveTowards_false_iff_arrived_witness :
    (0 : ℚ) ≤ 0 ∧
    (0 : ℚ) ^ 2 = normSq (Vec3.zero - Vec3.zero) ∧
    (((moveTowardsSurfaceLocation {} (fun _ _ => none)
        (fun fr _ _ _ _ _ => fr)
        ⟨Vec3.zero, ⟨Vec3.fwd, Vec3.mk 0 1 0, Vec3.up⟩, Vec3.up, true⟩
        Vec3.zero 1 10 0).2 = false ↔
      (0 : ℚ) ≤ SPConfig.acceptanceRadius {}) ∧
     ((0 : ℚ) ≤ SPConfig.acceptanceRadius {} →
      (moveTowardsSurfaceLocation {} (fun _ _ => none)
        (fun fr _ _ _ _ _ => fr)
        ⟨Vec3.zero, ⟨Vec3.fwd, Vec3.mk 0 1 0, Vec3.up⟩, Vec3.up, true⟩
        Vec3.zero 1 10 0).1 =
        ⟨Vec3.zero, ⟨Vec3.fwd, Vec3.mk 0 1 0, Vec3.up⟩, Vec3.up, true⟩)) :=
  ⟨by norm_num, by norm_num [normSq_def, Vec3.zero],
    moveTowards_false_iff_arrived {} (fun _ _ => none) (fun fr _ _ _ _ _ => fr)
      ⟨Vec3.zero, ⟨Vec3.fwd, Vec3.mk 0 1 0, Vec3.up⟩, Vec3.up, true⟩
      Vec3.zero 1 10 0 (by norm_num) (by norm_num [normSq_def, Vec3.zero])⟩

/-- C2: when a step that has not yet arrived hits something along the
path whose normal opposes the direction of travel (dot below -0.3), the
hit is treated as an obstacle: the call returns true (never false) and
the body is not advanced along the path; it is re-grounded on the
surface re-sampled at the current position when one is found, and left
untouched otherwise. -/
theorem moveTowards_obstacle_refuses (cfg : SPConfig) (ray : Ray)
    (interp : AlignInterp) (st : SPState) (targetLocation : Vec3)
    (dt speed dist : ℚ) (h : Hit) (hd0 : 0 ≤ dist)
    (hd : dist ^ 2 = normSq (targetLocation - st.pos))
    (hfar : ¬ dist ≤ cfg.acceptanceRadius)
    (hray : ray st.pos (pathTraceEnd cfg st targetLocation dt speed dist) = some h)
    (hdot : dot h.normal ((1 / dist) • (targetLocation - st.pos)) < -(3 / 10)) :
    (moveTowardsSurfaceLocation cfg ray interp st targetLocation dt speed dist).2 = true ∧
    (moveTowardsSurfaceLocation cfg ray interp st targetLocation dt speed dist).1 =
      (match detectSurface cfg ray st st.pos with
       | some nearest =>
          { st with
              pos := nearest.loc
              currentSurfaceNormal := nearest.normal
              bIsOnSurface := true
              frame := alignToSurface cfg interp st.frame nearest.normal dt }
       | none => st) := by
  simp only [moveTowardsSurfaceLocation, if_neg hfar]
  simp only [pathTraceEnd] at hray
  rw [hray]
  simp only [if_pos hdot]
  cases hds : detectSurface cfg ray st st.pos <;> simp [hds]

theorem moveTowards_obstacle_refuses_witness :
    (0 : ℚ) ≤ 200 ∧
    (200 : ℚ) ^ 2 = normSq (Vec3.mk 200 0 0 - Vec3.zero) ∧
    ¬ (200 : ℚ) ≤ SPConfig.acceptanceRadius {} ∧
    dot (Vec3.mk (-1) 0 0) ((1 / 200 : ℚ) • (Vec3.mk 200 0 0 - Vec3.zero)) < -(3 / 10) ∧
    ((moveTowardsSurfaceLocation {}
        (fun _ _ => some ⟨Vec3.mk 100 0 0, Vec3.mk (-1) 0 0, 100⟩)
        (fun fr _ _ _ _ _ => fr)
        ⟨Vec3.zero, ⟨Vec3.fwd, Vec3.mk 0 1 0, Vec3.up⟩, Vec3.up, true⟩
        (Vec3.mk 200 0 0) 1 10 200).2 = true ∧
     (moveTowardsSurfaceLocation {}
        (fun _ _ => some ⟨Vec3.mk 100 0 0, Vec3.mk (-1) 0 0, 100⟩)
        (fun fr _ _ _ _ _ => fr)
        ⟨Vec3.zero, ⟨Vec3.fwd, Vec3.mk 0 1 0, Vec3.up⟩, Vec3.up, true⟩
        (Vec3.mk 200 0 0) 1 10 200).1 =
      (match detectSurface {}
          (fun _ _ => some ⟨Vec3.mk 100 0 0, Vec3.mk (-1) 0 0, 100⟩)
          ⟨Vec3.zero, ⟨Vec3.fwd, Vec3.mk 0 1 0, Vec3.up⟩, Vec3.up, true⟩
          Vec3.zero with
       | some nearest =>
          { pos := nearest.loc
            currentSurfaceNormal := nearest.normal
            bIsOnSurface := true
            frame := alignToSurface {} (fun fr _ _ _ _ _ => fr)
              (Frame.mk Vec3.fwd (Vec3.mk 0 1 0) Vec3.up) nearest.normal 1 }
       | none => ⟨Vec3.zero, ⟨Vec3.fwd, Vec3.mk 0 1 0, Vec3.up⟩, Vec3.up, true⟩)) :=
  ⟨by norm_num, by norm_num [normSq_def, Vec3.zero],
    by norm_num, by norm_num [dot_def, Vec3.zero],
    moveTowards_obstacle_refuses {}
      (fun _ _ => some ⟨Vec3.mk 100 0 0, Vec3.mk (-1) 0 0, 100⟩)
      (fun fr _ _ _ _ _ => fr)
      ⟨Vec3.zero, ⟨Vec3.fwd, Vec3.mk 0 1 0, Vec3.up⟩, Vec3.up, true⟩
      (Vec3.mk 200 0 0) 1 10 200 ⟨Vec3.mk 100 0 0, Vec3.mk (-1) 0 0, 100⟩
      (by norm_num) (by norm_num [normSq_def, Vec3.zero]) (by norm_num) rfl
      (by norm_num [dot_def, Vec3.zero])⟩

/-- C5 counterexample: with the current normal up, a near-parallel
candidate (normal up, dot 1) on attempt 0 and a near-perpendicular one
(normal forward, dot 0, below the 0.5 divergence threshold) on attempt
1, the planner returns the near-parallel candidate — it does not prefer
the divergent one, refuting the claimed prioritisation. -/
theorem getRandomSurfaceLocation_no_divergence_priority :
    getRandomSurfaceLocation scenarioDRay scenarioDState Vec3.zero
      scenarioDDirs scenarioDDists = some ⟨Vec3.mk 100 0 10, Vec3.up⟩ ∧
    scenarioDRay Vec3.zero (Vec3.zero + scenarioDDists 1 • scenarioDDirs 1) =
      some ⟨Vec3.mk 0 100 0, Vec3.fwd, 100⟩ ∧
    dot scenarioDState.currentSurfaceNormal Vec3.up = 1 ∧
    ¬ dot scenarioDState.currentSurfaceNormal Vec3.up < 1 / 2 ∧
    dot scenarioDState.currentSurfaceNormal Vec3.fwd < 1 / 2 := by
  refine ⟨?_, ?_, ?_, ?_, ?_⟩
  · rw [getRandomSurfaceLocation, show (50 : ℕ) = 49 + 1 from rfl,
      List.range_succ_eq_map]
    rw [randomSurfaceGo]
    norm_num [randomSurfaceAttempt, scenarioDRay, scenarioDDirs, scenarioDDists,
      scenarioDState, Vec3.zero, Vec3.up, Vec3.fwd, dot_def]
  · norm_num [scenarioDRay, scenarioDDirs, scenarioDDists, Vec3.zero, Vec3.fwd]
  · norm_num [scenarioDState, dot_def, Vec3.up]
  · norm_num [scenarioDState, dot_def, Vec3.up]
  · norm_num [scenarioDState, dot_def, Vec3.up, Vec3.fwd]

/-- C5 amended: the planner accepts the first attempt whose trace hits,
regardless of how the candidate's normal relates to the current surface
normal — the divergence check accepts in both branches, so no candidate
is ever prioritised over an earlier one. -/
theorem getRandomSurfaceLocation_first_hit_accepted (ray : Ray)
    (st : SPState) (originLocation : Vec3) (dirs : ℕ → Vec3)
    (dists : ℕ → ℚ) (h : Hit)
    (hray : ray originLocation (originLocation + dists 0 • dirs 0) = some h) :
    getRandomSurfaceLocation ray st originLocation dirs dists =
      some ⟨h.loc + (10 : ℚ) • h.normal, h.normal⟩ := by
  rw [getRandomSurfaceLocation, show (50 : ℕ) = 49 + 1 from rfl,
    List.range_succ_eq_map]
  rw [randomSurfaceGo]
  simp only [randomSurfaceAttempt, hray, ite_self]

theorem getRandomSurfaceLocation_first_hit_accepted_witness :
    scenarioDRay Vec3.zero (Vec3.zero + scenarioDDists 0 • scenarioDDirs 0) =
      some ⟨Vec3.mk 100 0 0, Vec3.up, 100⟩ ∧
    getRandomSurfaceLocation scenarioDRay scenarioDState Vec3.zero
      scenarioDDirs scenarioDDists =
      some ⟨Vec3.mk 100 0 0 + (10 : ℚ) • Vec3.up, Vec3.up⟩ := by
  have hp : scenarioDRay Vec3.zero (Vec3.zero + scenarioDDists 0 • scenarioDDirs 0) =
      some ⟨Vec3.mk 100 0 0, Vec3.up, 100⟩ := by
    norm_num [scenarioDRay, scenarioDDirs, scenarioDDists, Vec3.zero, Vec3.up]
  exact ⟨hp, getRandomSurfaceLocation_first_hit_accepted scenarioDRay
    scenarioDState Vec3.zero scenarioDDirs scenarioDDists
    ⟨Vec3.mk 100 0 0, Vec3.up, 100⟩ hp⟩

theorem crawlAttempt_count_le (cfg : CtrlConfig) (ray : Ray) (cur dir : Vec3)
    (dist : ℚ) : (crawlAttempt cfg ray cur dir dist).2 ≤ 3 := by
  rw [crawlAttempt]
  dsimp only
  rcases ray (cur + dist • dir + (cfg.crawlSurfaceDetectionDistance * (1 / 2)) • dir)
      (cur + dist • dir - (cfg.crawlSurfaceDetectionDistance * (1 / 2)) • dir) with _ | h1
  · rcases ray cur (cur + dist • dir) with _ | h2 <;> norm_num
  · dsimp only
    rcases ray cur (h1.loc + cfg.crawlSurfaceOffset • h1.normal) with _ | h2
    · norm_num
    · rcases ray cur (cur + dist • dir) with _ | h3 <;> norm_num

theorem findCrawlableGo_count_le (cfg : CtrlConfig) (ray : Ray) (cur : Vec3)
    (dirs : ℕ → Vec3) (dists : ℕ → ℚ) (l : List ℕ) (n : ℕ) :
    (findCrawlableGo cfg ray cur dirs dists l n).2 ≤ n + 3 * l.length + 1 := by
  induction l generalizing n with
  | nil => simp [findCrawlableGo]
  | cons i rest ih =>
      rw [findCrawlableGo]
      rcases hA : crawlAttempt cfg ray cur (dirs i) (dists i) with ⟨res, c⟩
      have hc : c ≤ 3 := by
        have := crawlAttempt_count_le cfg ray cur (dirs i) (dists i)
        rwa [hA] at this
      cases res with
      | some r =>
          simp only [List.length_cons]
          omega
      | none =>
          simp only [List.length_cons]
          have := ih (n + c)
          omega

theorem findCrawlableGo_all_miss (cfg : CtrlConfig) (ray : Ray) (cur : Vec3)
    (dirs : ℕ → Vec3) (dists : ℕ → ℚ) (l : List ℕ) (n : ℕ)
    (hall : ∀ i ∈ l, (crawlAttempt cfg ray cur (dirs i) (dists i)).1 = none) :
    (findCrawlableGo cfg ray cur dirs dists l n).1 =
      crawlFallbackProbe cfg ray cur := by
  induction l generalizing n with
  | nil => simp [findCrawlableGo]
  | cons i rest ih =>
      rw [findCrawlableGo]
      rcases hA : crawlAttempt cfg ray cur (dirs i) (dists i) with ⟨res, c⟩
      have hres : res = none := by
        have := hall i (by simp)
        rwa [hA] at this
      subst hres
      exact ih (n + c) fun j hj => hall j (by simp [hj])

/-- C7: FindCrawlableDestination is bounded: its attempt constant is 8
(inside the 8-50 range), every call issues at most 3 * 8 + 1 ray
queries, and when every attempt fails the result is exactly the
straight-down fallback probe through the current location — nothing
when that, too, misses. -/
theorem findCrawlableDestination_bounded :
    maxCrawlAttempts = 8 ∧ 8 ≤ 50 ∧
    ∀ (cfg : CtrlConfig) (ray : Ray) (cur : Vec3) (dirs : ℕ → Vec3)
      (dists : ℕ → ℚ),
      (findCrawlableDestination cfg ray cur dirs dists).2 ≤
        3 * maxCrawlAttempts + 1 ∧
      ((∀ i < maxCrawlAttempts,
          (crawlAttempt cfg ray cur (dirs i) (dists i)).1 = none) →
        (findCrawlableDestination cfg ray cur dirs dists).1 =
          crawlFallbackProbe cfg ray cur) := by
  refine ⟨rfl, by norm_num, fun cfg ray cur dirs dists => ⟨?_, fun hall => ?_⟩⟩
  · have := findCrawlableGo_count_le cfg ray cur dirs dists
      (List.range maxCrawlAttempts) 0
    simpa [findCrawlableDestination] using this
  · have := findCrawlableGo_all_miss cfg ray cur dirs dists
      (List.range maxCrawlAttempts) 0
      (fun i hi => hall i (List.mem_range.mp hi))
    simpa [findCrawlableDestination] using this

theorem findCrawlableDestination_bounded_witness :
    (∀ i < maxCrawlAttempts,
      (crawlAttempt {} (fun _ _ => none) Vec3.zero Vec3.fwd (100 : ℚ)).1 = none) ∧
    (findCrawlableDestination {} (fun _ _ => none) Vec3.zero
      (fun _ => Vec3.fwd) (fun _ => 100)).2 ≤ 3 * maxCrawlAttempts + 1 ∧
    (findCrawlableDestination {} (fun _ _ => none) Vec3.zero
      (fun _ => Vec3.fwd) (fun _ => 100)).1 =
      crawlFallbackProbe {} (fun _ _ => none) Vec3.zero :=
  ⟨fun _ _ => rfl,
    (findCrawlableDestination_bounded.2.2 {} (fun _ _ => none) Vec3.zero
      (fun _ => Vec3.fwd) (fun _ => 100)).1,
    (findCrawlableDestination_bounded.2.2 {} (fun _ _ => none) Vec3.zero
      (fun _ => Vec3.fwd) (fun _ => 100)).2 (fun _ _ => rfl)⟩

theorem stuckTick_dead (mp thr : ℚ) (st : StuckTracker) (pos : Vec3)
    (dt : ℚ) (h : st.bHasCrawlingTarget = false) :
    (stuckTick mp thr st pos dt).bHasCrawlingTarget = false := by
  rw [stuckTick]
  split <;> split <;> simp [h]

theorem stuckTickN_succ_out (mp thr : ℚ) (pos : Vec3) (dt : ℚ) (n : ℕ)
    (st : StuckTracker) :
    stuckTickN mp thr pos dt (n + 1) st =
      stuckTick mp thr (stuckTickN mp thr pos dt n st) pos dt := by
  induction n generalizing st with
  | zero => rfl
  | succ n ih =>
      rw [stuckTickN]
      rw [ih (stuckTick mp thr st pos dt)]
      rfl

theorem stuck_no_progress_invariant (mp thr dt : ℚ) (pos : Vec3)
    (st0 : StuckTracker) (hm : 0 ≤ mp) (hthr : 0 ≤ thr)
    (hprev : st0.previousCrawlingLocation = pos) (ht0 : st0.stuckTime = 0)
    (n : ℕ) :
    (stuckTickN mp thr pos dt n st0).bHasCrawlingTarget = false ∨
    ((stuckTickN mp thr pos dt n st0).stuckTime = n * dt ∧
     (n : ℚ) * dt ≤ thr ∧
     (stuckTickN mp thr pos dt n st0).previousCrawlingLocation = pos ∧
     (stuckTickN mp thr pos dt n st0).bHasCrawlingTarget =
       st0.bHasCrawlingTarget) := by
  induction n with
  | zero =>
      right
      refine ⟨by simpa using ht0, by simpa using hthr, hprev, rfl⟩
  | succ n ih =>
      rw [stuckTickN_succ_out]
      rcases ih with hdead | ⟨htime, hle, hpr, hb⟩
      · left
        exact stuckTick_dead _ _ _ _ _ hdead
      · rw [stuckTick]
        have hzero : normSq (pos - (stuckTickN mp thr pos dt n st0).previousCrawlingLocation) = 0 := by
          rw [hpr]
          simp [normSq_def]
        have hnoprog : ¬ (mp * dt) ^ 2 < normSq (pos - (stuckTickN mp thr pos dt n st0).previousCrawlingLocation) := by
          rw [hzero]
          exact not_lt.mpr (sq_nonneg _)
        rw [if_neg hnoprog]
        by_cases hover : thr < (stuckTickN mp thr pos dt n st0).stuckTime + dt
        · rw [if_pos hover]; left; rfl
        · rw [if_neg hover]
          right
          refine ⟨?_, ?_, rfl, hb⟩
          · dsimp only
            rw [htime]
            push_cast
            ring
          · rw [htime] at hover
            push_cast
            linarith

/-- C3 (spec-modelled): a crawl leg with no displacement beyond the
minimum-progress threshold has its destination invalidated as soon as
the accumulated low-progress time exceeds the stuck threshold, and
repeated stuck ticks keep the destination discarded — the body never
pursues the same destination forever and no tick can fail. -/
theorem stuckTracker_invalidates_destination (mp thr dt : ℚ) (pos : Vec3)
    (st0 : StuckTracker) (hm : 0 ≤ mp) (hthr : 0 ≤ thr) (hdt : 0 < dt)
    (hprev : st0.previousCrawlingLocation = pos) (ht0 : st0.stuckTime = 0)
    (n : ℕ) (hn : thr < n * dt) :
    (stuckTickN mp thr pos dt n st0).bHasCrawlingTarget = false ∧
    ∀ m : ℕ, (stuckTickN mp thr pos dt (n + m) st0).bHasCrawlingTarget = false := by
  have hmain : (stuckTickN mp thr pos dt n st0).bHasCrawlingTarget = false := by
    rcases stuck_no_progress_invariant mp thr dt pos st0 hm hthr hprev ht0 n with
      hdead | ⟨_, hle, _, _⟩
    · exact hdead
    · exact absurd hn (not_lt.mpr hle)
  refine ⟨hmain, fun m => ?_⟩
  induction m with
  | zero => simpa using hmain
  | succ m ih =>
      have : n + (m + 1) = (n + m) + 1 := by omega
      rw [this, stuckTickN_succ_out]
      exact stuckTick_dead _ _ _ _ _ ih

theorem stuckTracker_invalidates_destination_witness :
    (0 : ℚ) ≤ 1 ∧ (0 : ℚ) ≤ 2 ∧ (0 : ℚ) < 1 ∧ (2 : ℚ) < (3 : ℕ) * (1 : ℚ) ∧
    (stuckTickN 1 2 Vec3.zero 1 3
      ⟨true, Vec3.zero, Vec3.zero, 0⟩).bHasCrawlingTarget = false ∧
    (stuckTickN 1 2 Vec3.zero 1 (3 + 2)
      ⟨true, Vec3.zero, Vec3.zero, 0⟩).bHasCrawlingTarget = false :=
  ⟨by norm_num, by norm_num, by norm_num, by norm_num,
    (stuckTracker_invalidates_destination 1 2 1 Vec3.zero
      ⟨true, Vec3.zero, Vec3.zero, 0⟩ (by norm_num) (by norm_num) (by norm_num)
      rfl rfl 3 (by norm_num)).1,
    (stuckTracker_invalidates_destination 1 2 1 Vec3.zero
      ⟨true, Vec3.zero, Vec3.zero, 0⟩ (by norm_num) (by norm_num) (by norm_num)
      rfl rfl 3 (by norm_num)).2 2⟩

theorem execIdle_below_target (cfg : CtrlConfig) (sinQ : ℚ → ℚ) (piQ : ℚ)
    (ray : Ray) (loc : Vec3) (st : CtrlState) (dt : ℚ) (d : Draws)
    (h : st.currentIdleTime + dt < st.targetIdleDuration) :
    (executeIdleBehavior cfg sinQ piQ ray loc st dt d).1.currentState = st.currentState ∧
    (executeIdleBehavior cfg sinQ piQ ray loc st dt d).1.currentIdleTime =
      st.currentIdleTime + dt ∧
    (executeIdleBehavior cfg sinQ piQ ray loc st dt d).1.targetIdleDuration =
      st.targetIdleDuration := by
  have hn : ¬ st.targetIdleDuration ≤ st.currentIdleTime + dt := not_le.mpr h
  simp only [executeIdleBehavior]
  split <;> split <;> simp [hn]

theorem execIdle_reached_roll_success (cfg : CtrlConfig) (sinQ : ℚ → ℚ)
    (piQ : ℚ) (ray : Ray) (loc : Vec3) (st : CtrlState) (dt : ℚ) (d : Draws)
    (h1 : st.targetIdleDuration ≤ st.currentIdleTime + dt)
    (h2 : d.transitionRoll < cfg.patrolTransitionChance)
    (h3 : st.currentState = MState.Idle) :
    (executeIdleBehavior cfg sinQ piQ ray loc st dt d).1.currentState =
      (if d.statePick < 1 / 2 then MState.PatrolStanding else MState.PatrolCrawling) := by
  simp only [executeIdleBehavior]
  split <;> split <;>
    simp only [h1, if_true, if_pos h1, if_pos h2] <;>
    by_cases hpick : d.statePick < 1 / 2 <;>
    simp only [hpick, if_true, if_false, transitionToState, h3] <;>
    split <;>
    simp_all [onEnterState, setBehaviorStateInternal] <;>
    split <;>
    simp_all <;>
    split <;>
    rfl

theorem execIdle_reached_roll_failure (cfg : CtrlConfig) (sinQ : ℚ → ℚ)
    (piQ : ℚ) (ray : Ray) (loc : Vec3) (st : CtrlState) (dt : ℚ) (d : Draws)
    (h1 : st.targetIdleDuration ≤ st.currentIdleTime + dt)
    (h2 : cfg.patrolTransitionChance ≤ d.transitionRoll) :
    (executeIdleBehavior cfg sinQ piQ ray loc st dt d).1.currentState =
      st.currentState ∧
    (executeIdleBehavior cfg sinQ piQ ray loc st dt d).1.currentIdleTime = 0 ∧
    (executeIdleBehavior cfg sinQ piQ ray loc st dt d).1.targetIdleDuration =
      validatedRandomRange cfg.minIdleDuration cfg.maxIdleDuration d.idleRedraw := by
  have hn : ¬ d.transitionRoll < cfg.patrolTransitionChance := not_lt.mpr h2
  simp only [executeIdleBehavior]
  split <;> split <;> simp [h1, hn]

theorem idle_scenario_ticks (cfg : CtrlConfig) (sinQ : ℚ → ℚ) (piQ : ℚ)
    (ray : Ray) (loc : Vec3)
    (hmin : cfg.minIdleDuration = 2) (hmax : cfg.maxIdleDuration = 2)
    (hp : cfg.patrolTransitionChance = 1) :
    ∀ (ticks : List (ℚ × Draws)) (st : CtrlState),
      st.currentState = MState.Idle → st.targetIdleDuration = 2 →
      (∀ td ∈ ticks, 0 < td.1 ∧ td.2.transitionRoll < 1) →
      st.currentIdleTime + (ticks.map Prod.fst).sum = 2 →
      ticks ≠ [] →
      (executeIdleTicks cfg sinQ piQ ray loc st ticks).currentState =
          MState.PatrolStanding ∨
      (executeIdleTicks cfg sinQ piQ ray loc st ticks).currentState =
          MState.PatrolCrawling := by
  intro ticks
  induction ticks with
  | nil => intro st _ _ _ _ hne; exact absurd rfl hne
  | cons td rest ih =>
      intro st hstate htarget hdraws hsum _
      rcases td with ⟨dt, d⟩
      rcases rest with _ | ⟨td2, rest2⟩
      · -- single final tick: the idle timer reaches the target now
        have hfin : st.currentIdleTime + dt = 2 := by
          simpa using hsum
        have h1 : st.targetIdleDuration ≤ st.currentIdleTime + dt := by
          rw [htarget, hfin]
        have hroll : d.transitionRoll < cfg.patrolTransitionChance := by
          rw [hp]
          exact (hdraws (dt, d) (by simp)).2
        rw [executeIdleTicks, executeIdleTicks]
        have := execIdle_reached_roll_success cfg sinQ piQ ray loc st dt d h1
          hroll hstate
        by_cases hpick : d.statePick < 1 / 2
        · left; rw [this, if_pos hpick]
        · right; rw [this, if_neg hpick]
      · -- at least one more tick follows: the target is not yet reached
        have hpos : 0 < ((td2 :: rest2).map Prod.fst).sum := by
          apply List.sum_pos
          · intro q hq
            simp only [List.mem_map] at hq
            obtain ⟨p, hp2, hq2⟩ := hq
            have := (hdraws p (by simp [hp2])).1
            rw [hq2] at this
            exact this
          · simp
        have hlt : st.currentIdleTime + dt < st.targetIdleDuration := by
          rw [htarget]
          have h2 : st.currentIdleTime + dt + ((td2 :: rest2).map Prod.fst).sum = 2 := by
            simp only [List.map_cons, List.sum_cons] at hsum ⊢
            linarith
          linarith
        rw [executeIdleTicks]
        obtain ⟨hs1, hs2, hs3⟩ := execIdle_below_target cfg sinQ piQ ray loc st dt d hlt
        apply ih
        · rw [hs1]; exact hstate
        · rw [hs3]; exact htarget
        · intro p hpmem; exact hdraws p (by simp [hpmem])
        · rw [hs2]
          simp only [List.map_cons, List.sum_cons] at hsum ⊢
          linarith
        · simp

/-- C4: the idle state leaves only through the probability gate: below
the drawn target duration the state is unchanged; once the timer
reaches the target a failed probability roll keeps the state Idle,
resets the idle timer and redraws the target (never leaving Idle on the
timer alone); and in the scenario minIdleDuration = maxIdleDuration = 2
with transition probability 1, ticking for exactly 2 simulated seconds
lands in PatrolStanding or PatrolCrawling, never Idle. -/
theorem executeIdle_probability_gated :
    (∀ (cfg : CtrlConfig) (sinQ : ℚ → ℚ) (piQ : ℚ) (ray : Ray) (loc : Vec3)
       (st : CtrlState) (dt : ℚ) (d : Draws),
       st.currentIdleTime + dt < st.targetIdleDuration →
       (executeIdleBehavior cfg sinQ piQ ray loc st dt d).1.currentState =
         st.currentState) ∧
    (∀ (cfg : CtrlConfig) (sinQ : ℚ → ℚ) (piQ : ℚ) (ray : Ray) (loc : Vec3)
       (st : CtrlState) (dt : ℚ) (d : Draws),
       st.targetIdleDuration ≤ st.currentIdleTime + dt →
       cfg.patrolTransitionChance ≤ d.transitionRoll →
       (executeIdleBehavior cfg sinQ piQ ray loc st dt d).1.currentState =
           st.currentState ∧
       (executeIdleBehavior cfg sinQ piQ ray loc st dt d).1.currentIdleTime = 0 ∧
       (executeIdleBehavior cfg sinQ piQ ray loc st dt d).1.targetIdleDuration =
         validatedRandomRange cfg.minIdleDuration cfg.maxIdleDuration d.idleRedraw) ∧
    (∀ (cfg : CtrlConfig) (sinQ : ℚ → ℚ) (piQ : ℚ) (ray : Ray) (loc : Vec3)
       (ticks : List (ℚ × Draws)) (st : CtrlState),
       cfg.minIdleDuration = 2 → cfg.maxIdleDuration = 2 →
       cfg.patrolTransitionChance = 1 →
       st.currentState = MState.Idle → st.targetIdleDuration = 2 →
       (∀ td ∈ ticks, 0 < td.1 ∧ td.2.transitionRoll < 1) →
       st.currentIdleTime + (ticks.map Prod.fst).sum = 2 →
       ticks ≠ [] →
       (executeIdleTicks cfg sinQ piQ ray loc st ticks).currentState =
           MState.PatrolStanding ∨
       (executeIdleTicks cfg sinQ piQ ray loc st ticks).currentState =
           MState.PatrolCrawling) := by
  refine ⟨?_, ?_, ?_⟩
  · intro cfg sinQ piQ ray loc st dt d h
    exact (execIdle_below_target cfg sinQ piQ ray loc st dt d h).1
  · intro cfg sinQ piQ ray loc st dt d h1 h2
    exact execIdle_reached_roll_failure cfg sinQ piQ ray loc st dt d h1 h2
  · intro cfg sinQ piQ ray loc ticks st hmin hmax hp hstate htarget hdraws hsum hne
    exact idle_scenario_ticks cfg sinQ piQ ray loc hmin hmax hp ticks st hstate
      htarget hdraws hsum hne

theorem executeIdle_probability_gated_witness :
    scenarioACfg.minIdleDuration = 2 ∧ scenarioACfg.maxIdleDuration = 2 ∧
    scenarioACfg.patrolTransitionChance = 1 ∧
    scenarioAState.currentState = MState.Idle ∧
    scenarioAState.targetIdleDuration = 2 ∧
    (∀ td ∈ [((1 : ℚ), ({} : Draws)), ((1 : ℚ), ({} : Draws))],
      0 < td.1 ∧ td.2.transitionRoll < 1) ∧
    scenarioAState.currentIdleTime +
      (([((1 : ℚ), ({} : Draws)), ((1 : ℚ), ({} : Draws))].map Prod.fst).sum) = 2 ∧
    ((executeIdleTicks scenarioACfg (fun _ => 0) 0 (fun _ _ => none) Vec3.zero
        scenarioAState
        [((1 : ℚ), ({} : Draws)), ((1 : ℚ), ({} : Draws))]).currentState =
        MState.PatrolStanding ∨
     (executeIdleTicks scenarioACfg (fun _ => 0) 0 (fun _ _ => none) Vec3.zero
        scenarioAState
        [((1 : ℚ), ({} : Draws)), ((1 : ℚ), ({} : Draws))]).currentState =
        MState.PatrolCrawling) :=
  ⟨rfl, rfl, rfl, rfl, rfl,
    by intro td h; fin_cases h <;> exact ⟨by norm_num, by norm_num⟩,
    by norm_num [scenarioAState],
    executeIdle_probability_gated.2.2 scenarioACfg (fun _ => 0) 0
      (fun _ _ => none) Vec3.zero
      [((1 : ℚ), ({} : Draws)), ((1 : ℚ), ({} : Draws))] scenarioAState
      rfl rfl rfl rfl rfl
      (by intro td h; fin_cases h <;> exact ⟨by norm_num, by norm_num⟩)
      (by norm_num [scenarioAState]) (by simp)⟩

theorem detectScore_nonneg (cfg : SPConfig) (st : SPState) (h : Hit)
    (hrange : 0 < cfg.surfaceDetectionRange) (h0 : 0 ≤ h.dist)
    (h1 : h.dist ≤ cfg.surfaceDetectionRange) (hn : normSq h.normal = 1)
    (hcn : st.bIsOnSurface = true → normSq st.currentSurfaceNormal = 1) :
    0 ≤ detectScore cfg st h := by
  rw [detectScore]
  have hds : 0 ≤ 1 - h.dist / cfg.surfaceDetectionRange := by
    rw [sub_nonneg, div_le_one hrange]; exact h1
  by_cases hb : st.bIsOnSurface = true
  · have hcs := dot_sq_le st.currentSurfaceNormal h.normal
    rw [hn, hcn hb, one_mul] at hcs
    have hd1 : -1 ≤ dot st.currentSurfaceNormal h.normal := by nlinarith
    simp only [hb, if_true]
    nlinarith
  · simp [hb]
    nlinarith

theorem detectStep_inv (cfg : SPConfig) (ray : Ray) (st : SPState)
    (loc : Vec3) (processed : List Vec3) (acc : ℚ × Option SurfacePoint)
    (d : Vec3) (hrange : 0 < cfg.surfaceDetectionRange)
    (hwf : rayHitWF cfg.surfaceDetectionRange loc
      (ray loc (loc + cfg.surfaceDetectionRange • d)))
    (hcn : st.bIsOnSurface = true → normSq st.currentSurfaceNormal = 1)
    (hinv : DetectInv cfg ray st loc processed acc) :
    DetectInv cfg ray st loc (processed ++ [d])
      (detectStep cfg ray st loc acc d) := by
  rw [detectStep]
  cases hray : ray loc (loc + cfg.surfaceDetectionRange • d) with
  | none =>
      refine ⟨fun hnone => ?_, fun sp hsp => ?_⟩
      · obtain ⟨hs, hall⟩ := hinv.1 hnone
        refine ⟨hs, fun d2 hd2 => ?_⟩
        rcases List.mem_append.mp hd2 with hd2 | hd2
        · exact hall d2 hd2
        · rw [List.mem_singleton.mp hd2]; exact hray
      · obtain ⟨hex, hbound⟩ := hinv.2 sp hsp
        refine ⟨?_, fun d2 hd2 h2 hray2 => ?_⟩
        · obtain ⟨d1, hd1, h1, hray1, hs1, hsp1⟩ := hex
          exact ⟨d1, List.mem_append.mpr (Or.inl hd1), h1, hray1, hs1, hsp1⟩
        · rcases List.mem_append.mp hd2 with hd2 | hd2
          · exact hbound d2 hd2 h2 hray2
          · rw [List.mem_singleton.mp hd2] at hray2
            rw [hray] at hray2
            exact absurd hray2 (by simp)
  | some h =>
      rw [hray] at hwf
      obtain ⟨hw0, hw1, hwn, hwl⟩ := hwf
      have hscore : 0 ≤ detectScore cfg st h :=
        detectScore_nonneg cfg st h hrange hw0 hw1 hwn hcn
      dsimp only
      by_cases hlt : acc.1 < detectScore cfg st h
      · rw [if_pos hlt]
        refine ⟨by simp, fun sp hsp => ?_⟩
        have hsp2 : sp = ⟨h.loc + (10 : ℚ) • h.normal, h.normal⟩ := by
          simpa using hsp.symm
        refine ⟨⟨d, List.mem_append.mpr (Or.inr (List.mem_singleton.mpr rfl)),
          h, hray, rfl, hsp2⟩, fun d2 hd2 h2 hray2 => ?_⟩
        rcases List.mem_append.mp hd2 with hd2 | hd2
        · cases hacc : acc.2 with
          | none =>
              obtain ⟨_, hall⟩ := hinv.1 hacc
              rw [hall d2 hd2] at hray2
              exact absurd hray2 (by simp)
          | some spOld =>
              obtain ⟨_, hbound⟩ := hinv.2 spOld hacc
              have := hbound d2 hd2 h2 hray2
              dsimp only
              linarith
        · rw [List.mem_singleton.mp hd2] at hray2
          rw [hray] at hray2
          have : h2 = h := by injection hray2.symm
          rw [this]
      · rw [if_neg hlt]
        push_neg at hlt
        refine ⟨fun hnone => ?_, fun sp hsp => ?_⟩
        · obtain ⟨hs, _⟩ := hinv.1 hnone
          rw [hs] at hlt
          linarith
        · obtain ⟨hex, hbound⟩ := hinv.2 sp hsp
          refine ⟨?_, fun d2 hd2 h2 hray2 => ?_⟩
          · obtain ⟨d1, hd1, h1, hray1, hs1, hsp1⟩ := hex
            exact ⟨d1, List.mem_append.mpr (Or.inl hd1), h1, hray1, hs1, hsp1⟩
          · rcases List.mem_append.mp hd2 with hd2 | hd2
            · exact hbound d2 hd2 h2 hray2
            · rw [List.mem_singleton.mp hd2] at hray2
              rw [hray] at hray2
              have : h2 = h := by injection hray2.symm
              rw [this]
              exact hlt

theorem detect_foldl_inv (cfg : SPConfig) (ray : Ray) (st : SPState)
    (loc : Vec3) (hrange : 0 < cfg.surfaceDetectionRange)
    (hcn : st.bIsOnSurface = true → normSq st.currentSurfaceNormal = 1) :
    ∀ (l processed : List Vec3) (acc : ℚ × Option SurfacePoint),
      (∀ d ∈ l, rayHitWF cfg.surfaceDetectionRange loc
        (ray loc (loc + cfg.surfaceDetectionRange • d))) →
      DetectInv cfg ray st loc processed acc →
      DetectInv cfg ray st loc (processed ++ l)
        (List.foldl (detectStep cfg ray st loc) acc l) := by
  intro l
  induction l with
  | nil => intro processed acc _ hinv; simpa using hinv
  | cons d rest ih =>
      intro processed acc hwf hinv
      have hstep := detectStep_inv cfg ray st loc processed acc d hrange
        (hwf d (by simp)) hcn hinv
      have := ih (processed ++ [d]) (detectStep cfg ray st loc acc d)
        (fun d2 hd2 => hwf d2 (by simp [hd2])) hstep
      simpa [List.append_assoc] using this

/-- C6: DetectSurface casts the six fixed world-space axis traces out to
the detection range; it fails exactly when every direction misses, and
any returned sample is an actual hit's point offset 10 units along its
raw normal whose weighted score (70% proximity, 30% alignment with the
current normal, neutral without a surface) is maximal among all hit
directions. -/
theorem detectSurface_selects_best (cfg : SPConfig) (ray : Ray)
    (st : SPState) (loc : Vec3) (hrange : 0 < cfg.surfaceDetectionRange)
    (hwf : ∀ d ∈ traceDirections, rayHitWF cfg.surfaceDetectionRange loc
      (ray loc (loc + cfg.surfaceDetectionRange • d)))
    (hcn : st.bIsOnSurface = true → normSq st.currentSurfaceNormal = 1) :
    (detectSurface cfg ray st loc = none ↔
      ∀ d ∈ traceDirections,
        ray loc (loc + cfg.surfaceDetectionRange • d) = none) ∧
    (∀ sp, detectSurface cfg ray st loc = some sp →
      ∃ d ∈ traceDirections, ∃ h,
        ray loc (loc + cfg.surfaceDetectionRange • d) = some h ∧
        sp = ⟨h.loc + (10 : ℚ) • h.normal, h.normal⟩ ∧
        ∀ d2 ∈ traceDirections, ∀ h2,
          ray loc (loc + cfg.surfaceDetectionRange • d2) = some h2 →
            detectScore cfg st h2 ≤ detectScore cfg st h) := by
  have hbase : DetectInv cfg ray st loc [] (-1, none) := by
    constructor
    · intro _; exact ⟨rfl, by simp⟩
    · intro sp hsp; exact absurd hsp (by simp)
  have hinv := detect_foldl_inv cfg ray st loc hrange hcn traceDirections []
    (-1, none) hwf hbase
  rw [List.nil_append] at hinv
  have haux : detectSurface cfg ray st loc = (detectSurfaceAux cfg ray st loc).2 := rfl
  have haux2 : detectSurfaceAux cfg ray st loc =
      List.foldl (detectStep cfg ray st loc) (-1, none) traceDirections := rfl
  constructor
  · constructor
    · intro hnone
      rw [haux, haux2] at hnone
      exact (hinv.1 hnone).2
    · intro hall
      by_contra hne
      rcases Option.ne_none_iff_exists.mp hne with ⟨sp, hsp⟩
      rw [haux, haux2] at hsp
      obtain ⟨⟨d1, hd1, h1, hray1, _⟩, _⟩ := hinv.2 sp hsp.symm
      rw [hall d1 hd1] at hray1
      exact absurd hray1 (by simp)
  · intro sp hsp
    rw [haux, haux2] at hsp
    obtain ⟨⟨d1, hd1, h1, hray1, hs1, hsp1⟩, hbound⟩ := hinv.2 sp hsp
    refine ⟨d1, hd1, h1, hray1, hsp1, fun d2 hd2 h2 hray2 => ?_⟩
    rw [hs1]
    exact hbound d2 hd2 h2 hray2

theorem detectSurface_selects_best_witness :
    (0 : ℚ) < SPConfig.surfaceDetectionRange {} ∧
    (∀ d ∈ traceDirections,
      rayHitWF (SPConfig.surfaceDetectionRange {}) Vec3.zero
        (scenarioSamplerRay Vec3.zero
          (Vec3.zero + SPConfig.surfaceDetectionRange {} • d))) ∧
    ((detectSurface {} scenarioSamplerRay scenarioDState Vec3.zero = none ↔
      ∀ d ∈ traceDirections,
        scenarioSamplerRay Vec3.zero
          (Vec3.zero + SPConfig.surfaceDetectionRange {} • d) = none) ∧
     (∀ sp, detectSurface {} scenarioSamplerRay scenarioDState Vec3.zero = some sp →
      ∃ d ∈ traceDirections, ∃ h,
        scenarioSamplerRay Vec3.zero
          (Vec3.zero + SPConfig.surfaceDetectionRange {} • d) = some h ∧
        sp = ⟨h.loc + (10 : ℚ) • h.normal, h.normal⟩ ∧
        ∀ d2 ∈ traceDirections, ∀ h2,
          scenarioSamplerRay Vec3.zero
            (Vec3.zero + SPConfig.surfaceDetectionRange {} • d2) = some h2 →
            detectScore {} scenarioDState h2 ≤ detectScore {} scenarioDState h)) :=
  ⟨by norm_num,
    by
      intro d hd
      fin_cases hd <;>
        norm_num [rayHitWF, scenarioSamplerRay, Vec3.zero, Vec3.up, normSq_def],
    detectSurface_selects_best {} scenarioSamplerRay scenarioDState Vec3.zero
      (by norm_num)
      (by
        intro d hd
        fin_cases hd <;>
          norm_num [rayHitWF, scenarioSamplerRay, Vec3.zero, Vec3.up, normSq_def])
      (by intro _; norm_num [scenarioDState, normSq_def, Vec3.up])⟩

end AuraMonster
